import Mathlib

/-!
Verification development for the tenant-resolution / custom-domain
lifecycle engine (Convex + Next.js multi-tenant site platform).

The TypeScript sources are shallowly embedded:
* JavaScript strings are Lean `String`s; the JS string operations used by
  the code (`trim`, `toLowerCase`, `split`, `slice`, `endsWith`, …) are
  modelled on the underlying character list (`String.data`).  `toLowerCase`
  is modelled as ASCII lowering (all inputs of interest are hostnames).
* The Convex database is an explicit `Registry` value; each query /
  mutation / action is a function threading the registry.  A Convex
  mutation is a single transaction; the embedded mutations perform their
  writes exactly where the source does (every throwing path in the source
  throws before its first write, so rollback and threading agree).
  A thrown JS error is `Except.error` carrying the message.
* Network calls to the Vercel API (`addDomainToProject`,
  `getDomainConfig`, `deleteDomain`) are modelled by oracle parameters of
  type `Except String _` giving that call's outcome for the invocation
  under analysis.
-/

/-- ASCII lowering of one character, the behaviour of JS `toLowerCase`
on the ASCII range (hostnames/subdomains are ASCII). -/
def lowerChar (c : Char) : Char :=
  if 'A' ≤ c ∧ c ≤ 'Z' then Char.ofNat (c.toNat + 32) else c

/-- JS `s.toLowerCase()` (ASCII fragment). -/
def jsToLower (s : String) : String := ⟨s.data.map lowerChar⟩

/-- JS `s.trim()`: strip leading and trailing whitespace. -/
def jsTrim (s : String) : String :=
  ⟨((s.data.dropWhile Char.isWhitespace).reverse.dropWhile Char.isWhitespace).reverse⟩

/-- JS `s.split(sep)` for a single-character separator, on character
lists: `split('.')` of `""` is `[""]`, consecutive separators produce
empty parts. -/
def splitOnChar (sep : Char) : List Char → List (List Char)
  | [] => [[]]
  | c :: cs =>
    let rest := splitOnChar sep cs
    if c = sep then [] :: rest
    else
      match rest with
      | [] => [[c]]
      | r :: rs => (c :: r) :: rs

theorem splitOnChar_ne_nil (sep : Char) (l : List Char) : splitOnChar sep l ≠ [] := by
  cases l with
  | nil => simp [splitOnChar]
  | cons c cs =>
    simp only [splitOnChar]
    split
    · simp
    · split
      · simp
      · simp

/-- The first component of a single-character split is the longest
separator-free prefix. -/
theorem splitOnChar_head? (sep : Char) (l : List Char) :
    (splitOnChar sep l).head? = some (l.takeWhile (· ≠ sep)) := by
  induction l with
  | nil => simp [splitOnChar]
  | cons c cs ih =>
    simp only [splitOnChar, List.takeWhile]
    by_cases h : c = sep
    · simp [h]
    · simp only [if_neg h]
      rcases hrest : splitOnChar sep cs with _ | ⟨r, rs⟩
      · exact absurd hrest (splitOnChar_ne_nil sep cs)
      · rw [hrest] at ih
        simp only [List.head?] at ih
        simp [h, Option.some.injEq] at ih ⊢
        exact ih

example : splitOnChar '.' "a.b".data = ["a".data, "b".data] := by decide
example : splitOnChar '.' "".data = [[]] := by decide
example : splitOnChar '.' "a..b".data = ["a".data, [], "b".data] := by decide

/-- The anchored regex replace `raw.replace(/^https?:\/\//, "")`. -/
def stripScheme : List Char → List Char
  | 'h' :: 't' :: 't' :: 'p' :: 's' :: ':' :: '/' :: '/' :: rest => rest
  | 'h' :: 't' :: 't' :: 'p' :: ':' :: '/' :: '/' :: rest => rest
  | l => l

/-- Model of `normalizeDomain` (vercelDomains.ts): trim + lowercase, strip an
http/https scheme, strip everything from the first `/`, require a dot,
then strip one trailing dot. Throws are `Except.error` with the source's
message. -/
def normalizeDomain (raw : String) : Except String String :=
  let domain := (jsToLower (jsTrim raw)).data
  if domain.isEmpty then
    .error "Domain is required."
  else
    let domain := stripScheme domain
    let domain := domain.takeWhile (· ≠ '/')
    if ¬ domain.contains '.' then
      .error "Please enter a valid domain name like \x22kooft.com\x22 (no protocol, no path)."
    else
      let domain := if domain.getLast? = some '.' then domain.dropLast else domain
      .ok ⟨domain⟩

example : normalizeDomain "HTTPS://Example.com/path" = .ok "example.com" := by rfl
example : normalizeDomain "nodothost" =
    .error "Please enter a valid domain name like \x22kooft.com\x22 (no protocol, no path)." := by rfl
example : normalizeDomain "host." = .ok "host" := by rfl
example : normalizeDomain "  Kooft.COM.  " = .ok "kooft.com" := by rfl

/-! ## Vercel DNS configuration model (vercelDomains.ts) -/

/-- One entry of `recommendedIPv4`: `{ rank: number; value: string[] }`. -/
structure RecommendedIPv4 where
  rank : Int
  value : List String
deriving DecidableEq, Repr

/-- One entry of `recommendedCNAME`: `{ rank: number; value: string }`. -/
structure RecommendedCNAME where
  rank : Int
  value : String
deriving DecidableEq, Repr

/-- Model of `VercelDomainConfigResponse` as consumed by the code under analysis
(`configuredBy` / `acceptedChallenges` are carried but never read by the
derivation logic; `configuredBy` is kept as a plain optional string). -/
structure VercelDomainConfigResponse where
  configuredBy : Option String
  acceptedChallenges : List String
  recommendedIPv4 : List RecommendedIPv4
  recommendedCNAME : List RecommendedCNAME
  misconfigured : Bool
deriving DecidableEq, Repr

/-- Model of `DnsInstruction`: derived verification record. `status` is
`"active" | "pending"`; the three verification fields are optional. -/
structure DnsInstruction where
  status : String
  verificationType : Option String
  verificationName : Option String
  verificationValue : Option String
deriving DecidableEq, Repr

/-- The labels of a domain as computed by `domain.split(".").filter(Boolean)`. -/
def domainLabels (domain : String) : List (List Char) :=
  (splitOnChar '.' domain.data).filter (fun l => !l.isEmpty)

/-- Model of `recommendedIpv4 && recommendedIpv4.value?.length` together with
`recommendedIpv4.value[0]`: the first IPv4 of the first recommendation,
when that entry exists and its value list is non-empty. -/
def firstIPv4 (config : VercelDomainConfigResponse) : Option String :=
  config.recommendedIPv4.head?.bind (fun r => r.value.head?)

namespace Part000

/-- Model of `deriveDnsInstruction` from the apex-aware copy (src/unnamed/part_000):
two-label domains prefer an A record, longer domains prefer CNAME, with
mutual fallback. -/
def deriveDnsInstruction (domain : String) (config : VercelDomainConfigResponse) :
    DnsInstruction :=
  let recommendedCname := config.recommendedCNAME.head?
  let ipv4First := firstIPv4 config
  let isApex := (domainLabels domain).length = 2
  let status := if config.misconfigured then "pending" else "active"
  if isApex ∧ ipv4First.isSome then
    { status, verificationType := some "A", verificationName := some domain,
      verificationValue := ipv4First }
  else if ¬ isApex ∧ recommendedCname.isSome then
    { status, verificationType := some "CNAME", verificationName := some domain,
      verificationValue := recommendedCname.map (·.value) }
  else if ipv4First.isSome then
    { status, verificationType := some "A", verificationName := some domain,
      verificationValue := ipv4First }
  else if recommendedCname.isSome then
    { status, verificationType := some "CNAME", verificationName := some domain,
      verificationValue := recommendedCname.map (·.value) }
  else
    { status, verificationType := none, verificationName := none, verificationValue := none }

end Part000

namespace ConvexVercel

/-- Model of `deriveDnsInstruction` from src/convex/vercelDomains.ts: prefers a
CNAME recommendation for every domain, falling back to an A record. -/
def deriveDnsInstruction (domain : String) (config : VercelDomainConfigResponse) :
    DnsInstruction :=
  let apexRecommendedCname := config.recommendedCNAME.head?
  let ipv4First := firstIPv4 config
  let status := if config.misconfigured then "pending" else "active"
  if apexRecommendedCname.isSome then
    { status, verificationType := some "CNAME", verificationName := some domain,
      verificationValue := apexRecommendedCname.map (·.value) }
  else if ipv4First.isSome then
    { status, verificationType := some "A", verificationName := some domain,
      verificationValue := ipv4First }
  else
    { status, verificationType := none, verificationName := none, verificationValue := none }

end ConvexVercel

/-- Modelled from the spec's words for the derivation policy (§4.3 / C2):
apex (two-label) domains prefer the first recommended IPv4, falling back
to the first recommended CNAME; non-apex domains prefer CNAME, falling
back to A; with no recommendation there is no instruction. -/
def deriveDnsInstructionPolicy (domain : String) (config : VercelDomainConfigResponse) :
    DnsInstruction :=
  let cname := (config.recommendedCNAME.head?).map (·.value)
  let a := firstIPv4 config
  let pick : Option (String × String) :=
    if (domainLabels domain).length = 2 then
      match a with
      | some v => some ("A", v)
      | none => cname.map (fun v => ("CNAME", v))
    else
      match cname with
      | some v => some ("CNAME", v)
      | none => a.map (fun v => ("A", v))
  { status := if config.misconfigured then "pending" else "active"
    verificationType := pick.map (·.1)
    verificationName := pick.map (fun _ => domain)
    verificationValue := pick.map (·.2) }

/-! ## Registry (Convex database, schema.ts) -/

/-- A `sites` document. Ids are opaque registry-assigned values, modelled
as naturals. -/
structure Site where
  id : Nat
  name : String
  subdomain : String
  title : String
  description : String
  primaryColor : String
  secondaryColor : String
  faviconStorageId : Option Nat
  createdAt : Nat
  updatedAt : Nat
deriving DecidableEq, Repr

/-- A `customDomains` document. -/
structure CustomDomain where
  id : Nat
  siteId : Nat
  domain : String
  redirectFromWww : Bool
  status : String
  verificationType : Option String
  verificationName : Option String
  verificationValue : Option String
  vercelDomainId : Option String
  error : Option String
  createdAt : Nat
  updatedAt : Nat
deriving DecidableEq, Repr

/-- The Convex database plus the blob store's `getUrl`: document lists in
insertion order, a fresh-id counter, and the storage URL resolver
(`ctx.storage.getUrl`, `none` when the blob is absent). -/
structure Registry where
  sites : List Site
  customDomains : List CustomDomain
  nextId : Nat
  storageUrl : Nat → Option String

/-- Model of `.withIndex("by_domain", …).first()`: the first `customDomains`
document with the given domain. -/
def findByDomain (st : Registry) (domain : String) : Option CustomDomain :=
  st.customDomains.find? (fun r => r.domain = domain)

/-- Model of `.withIndex("by_subdomain", …).first()`: the first `sites` document
with the given subdomain. -/
def findBySubdomain (st : Registry) (subdomain : String) : Option Site :=
  st.sites.find? (fun s => s.subdomain = subdomain)

/-- Model of `ctx.db.get(id)` on `customDomains`. -/
def customDomainsGet (st : Registry) (id : Nat) : Option CustomDomain :=
  st.customDomains.find? (fun r => r.id = id)

/-! ## sites.ts -/

/-- Is `c` one of `[a-z0-9]`? -/
def isSubdomainChar (c : Char) : Bool :=
  ('a' ≤ c ∧ c ≤ 'z') ∨ ('0' ≤ c ∧ c ≤ '9')

/-- The regex `/^[a-z0-9]+(-[a-z0-9]+)*$/`: dash-separated non-empty runs
of lowercase alphanumerics (so no leading/trailing/double dash). -/
def matchesSubdomainPattern (s : String) : Bool :=
  (splitOnChar '-' s.data).all (fun p => !p.isEmpty && p.all isSubdomainChar)

example : matchesSubdomainPattern "my-site" = true := by decide
example : matchesSubdomainPattern "a1b2" = true := by decide
example : matchesSubdomainPattern "-bad" = false := by decide
example : matchesSubdomainPattern "bad-" = false := by decide
example : matchesSubdomainPattern "Has_Underscore" = false := by decide
example : matchesSubdomainPattern "" = false := by decide
example : matchesSubdomainPattern "a--b" = false := by decide

/-- Model of `normalizeAndValidateSubdomain` (sites.ts): trim + lowercase, require
non-empty, length between 3 and 63, and the subdomain pattern. -/
def normalizeAndValidateSubdomain (raw : String) : Except String String :=
  let subdomain := jsToLower (jsTrim raw)
  if subdomain = "" then
    .error "Subdomain is required."
  else if subdomain.data.length < 3 ∨ subdomain.data.length > 63 then
    .error "Subdomain must be between 3 and 63 characters."
  else if ¬ matchesSubdomainPattern subdomain then
    .error "Subdomain can only contain letters, numbers and dashes, and cannot start or end with a dash."
  else
    .ok subdomain

/-- The arguments of the `sites.create` mutation (without the implicit
context). -/
structure SiteCreateArgs where
  name : String
  subdomain : String
  title : String
  description : String
  primaryColor : String
  secondaryColor : String
  faviconStorageId : Option Nat
deriving DecidableEq, Repr

/-- Model of `sites.create`: validate the subdomain, check-then-insert against the
`by_subdomain` index, and insert with timestamps. A throw leaves the
registry as it was (no write precedes any throw). -/
def sitesCreate (st : Registry) (args : SiteCreateArgs) (now : Nat) :
    Registry × Except String Nat :=
  match normalizeAndValidateSubdomain args.subdomain with
  | .error e => (st, .error e)
  | .ok subdomain =>
    match findBySubdomain st subdomain with
    | some _ => (st, .error "Subdomain is already in use.")
    | none =>
      let id := st.nextId
      let site : Site :=
        { id, name := args.name, subdomain, title := args.title,
          description := args.description, primaryColor := args.primaryColor,
          secondaryColor := args.secondaryColor,
          faviconStorageId := args.faviconStorageId,
          createdAt := now, updatedAt := now }
      ({ st with sites := st.sites ++ [site], nextId := st.nextId + 1 }, .ok id)

/-- Model of `sites.remove`: release the favicon blob if present (modelled as a
no-op on the registry value: the blob store is external), then delete the
site document. `customDomains` rows are untouched (no cascade). -/
def sitesRemove (st : Registry) (id : Nat) : Registry × Except String Unit :=
  ({ st with sites := st.sites.filter (fun s => ¬ s.id = id) }, .ok ())

/-- Model of `sites.getBySubdomain`: validate, look up by subdomain, and resolve
the favicon URL. Propagates the validator's throw. -/
def sitesGetBySubdomain (st : Registry) (rawSubdomain : String) :
    Except String (Option (Site × Option String)) :=
  match normalizeAndValidateSubdomain rawSubdomain with
  | .error e => .error e
  | .ok subdomain =>
    match findBySubdomain st subdomain with
    | none => .ok none
    | some site => .ok (some (site, site.faviconStorageId.bind st.storageUrl))

/-! ## customDomains.ts -/

/-- The public projection returned by `customDomains.getSiteByDomain` and
the by-subdomain HTTP endpoint. -/
structure PublicSiteConfig where
  name : String
  subdomain : String
  title : String
  description : String
  primaryColor : String
  secondaryColor : String
  faviconUrl : Option String
deriving DecidableEq, Repr

/-- Project a site document to its public fields, resolving the favicon
blob to a URL. -/
def publicProjection (st : Registry) (site : Site) : PublicSiteConfig :=
  { name := site.name, subdomain := site.subdomain, title := site.title,
    description := site.description, primaryColor := site.primaryColor,
    secondaryColor := site.secondaryColor,
    faviconUrl := site.faviconStorageId.bind st.storageUrl }

/-- Model of `customDomains.getSiteByDomain`: trim + lowercase the queried domain;
`null` for an empty domain, an unmatched domain, or a matching record
whose `siteId` no longer resolves to a site. -/
def getSiteByDomain (st : Registry) (rawDomain : String) : Option PublicSiteConfig :=
  let domain := jsToLower (jsTrim rawDomain)
  if domain = "" then none
  else
    match findByDomain st domain with
    | none => none
    | some record =>
      match st.sites.find? (fun s => s.id = record.siteId) with
      | none => none
      | some site => some (publicProjection st site)

/-- Arguments of the `customDomains.insert` mutation. `none` on an
optional field models a Convex argument that was not supplied (an
`undefined` field is stripped before the call). -/
structure CustomDomainInsertArgs where
  siteId : Nat
  domain : String
  redirectFromWww : Bool
  status : String
  vercelDomainId : Option String
  verificationType : Option String
  verificationName : Option String
  verificationValue : Option String
  error : Option String
deriving DecidableEq, Repr

/-- Model of `customDomains.insert`: check-then-insert against the `by_domain`
index; duplicates throw before any write. -/
def customDomainsInsert (st : Registry) (args : CustomDomainInsertArgs) (now : Nat) :
    Registry × Except String Nat :=
  match findByDomain st args.domain with
  | some _ => (st, .error ("Domain \x22" ++ args.domain ++ "\x22 is already connected."))
  | none =>
    let id := st.nextId
    let record : CustomDomain :=
      { id, siteId := args.siteId, domain := args.domain,
        redirectFromWww := args.redirectFromWww, status := args.status,
        verificationType := args.verificationType,
        verificationName := args.verificationName,
        verificationValue := args.verificationValue,
        vercelDomainId := args.vercelDomainId, error := args.error,
        createdAt := now, updatedAt := now }
    ({ st with customDomains := st.customDomains ++ [record], nextId := st.nextId + 1 },
      .ok id)

/-- Arguments of `customDomains.updateStatus`. As in `insert`, a `none`
optional field is an argument that was not supplied; `db.patch` then
leaves that field of the document unchanged. -/
structure UpdateStatusArgs where
  id : Nat
  status : String
  verificationType : Option String
  verificationName : Option String
  verificationValue : Option String
  vercelDomainId : Option String
  error : Option String
deriving DecidableEq, Repr

/-- Model of `db.patch` on one optional field: a supplied argument overwrites the
stored value, an unsupplied one leaves it alone. -/
def patchOpt (arg old : Option String) : Option String :=
  match arg with
  | some v => some v
  | none => old

/-- Model of `customDomains.updateStatus`: patch the document's status and any
supplied optional fields, bumping `updatedAt`. -/
def customDomainsUpdateStatus (st : Registry) (args : UpdateStatusArgs) (now : Nat) :
    Registry × Except String Unit :=
  ({ st with customDomains := st.customDomains.map (fun r =>
      if r.id = args.id then
        { r with
          status := args.status
          verificationType := patchOpt args.verificationType r.verificationType
          verificationName := patchOpt args.verificationName r.verificationName
          verificationValue := patchOpt args.verificationValue r.verificationValue
          vercelDomainId := patchOpt args.vercelDomainId r.vercelDomainId
          error := patchOpt args.error r.error
          updatedAt := now }
      else r) }, .ok ())

/-- Model of `customDomains.remove`: `ctx.db.delete(id)` (Convex throws when the
document is missing). -/
def customDomainsRemove (st : Registry) (id : Nat) : Registry × Except String Unit :=
  match customDomainsGet st id with
  | none => (st, .error "Delete on nonexistent document.")
  | some _ =>
    ({ st with customDomains := st.customDomains.filter (fun r => ¬ r.id = id) }, .ok ())

/-- Model of `deleteDomain` (vercelDomains.ts): best-effort DELETE whose own body
swallows every failure, so it never throws. The parameter is the outcome
of the underlying provider call. -/
def deleteDomain (outcome : Except String Unit) : Except String Unit :=
  match outcome with
  | .ok _ => .ok ()
  | .error _ => .ok ()

/-- Arguments of the `customDomains.createForSite` action. -/
structure CreateForSiteArgs where
  siteId : Nat
  domain : String
  redirectFromWww : Bool
deriving DecidableEq, Repr

/-- Outcomes of the provider calls a `createForSite` invocation may make
(`addDomainToProject` / `getDomainConfig` for the apex and the `www`
variant). An `Except.error` carries the message of the error the call
would throw. -/
structure ProviderOutcomes where
  attachApex : Except String Unit
  fetchApex : Except String VercelDomainConfigResponse
  attachWww : Except String Unit
  fetchWww : Except String VercelDomainConfigResponse
deriving Repr

/-- Model of `customDomains.createForSite` (an action: each `runMutation` commits
on its own, and a throw aborts the rest of the action without undoing
committed mutations). Uses the apex-aware `deriveDnsInstruction`
(src/unnamed/part_000, the module that also provides
`addDomainToProject`). Returns `(apexId, wwwId?)`. -/
def createForSite (st : Registry) (args : CreateForSiteArgs) (p : ProviderOutcomes)
    (now : Nat) : Registry × Except String (Nat × Option Nat) :=
  match normalizeDomain args.domain with
  | .error e => (st, .error e)
  | .ok apexDomain =>
    match p.attachApex with
    | .error e => (st, .error e)
    | .ok _ =>
      match p.fetchApex with
      | .error e => (st, .error e)
      | .ok apexConfig =>
        let apexDns := Part000.deriveDnsInstruction apexDomain apexConfig
        let insertApex := customDomainsInsert st
          { siteId := args.siteId, domain := apexDomain,
            redirectFromWww := args.redirectFromWww, status := apexDns.status,
            vercelDomainId := none,
            verificationType := apexDns.verificationType,
            verificationName := apexDns.verificationName,
            verificationValue := apexDns.verificationValue,
            error := none } now
        match insertApex with
        | (st1, .error e) => (st1, .error e)
        | (st1, .ok apexId) =>
          if args.redirectFromWww then
            let wwwDomain := "www." ++ apexDomain
            match p.attachWww with
            | .error e => (st1, .error e)
            | .ok _ =>
              match p.fetchWww with
              | .error e => (st1, .error e)
              | .ok wwwConfig =>
                let wwwDns := Part000.deriveDnsInstruction wwwDomain wwwConfig
                let insertWww := customDomainsInsert st1
                  { siteId := args.siteId, domain := wwwDomain,
                    redirectFromWww := true, status := wwwDns.status,
                    vercelDomainId := none,
                    verificationType := wwwDns.verificationType,
                    verificationName := wwwDns.verificationName,
                    verificationValue := wwwDns.verificationValue,
                    error := none } now
                match insertWww with
                | (st2, .error e) => (st2, .error e)
                | (st2, .ok wwwId) => (st2, .ok (apexId, some wwwId))
          else
            (st1, .ok (apexId, none))

/-- Model of `customDomains.refreshStatus` (action): load the record (missing ⇒
throw), fetch the provider config; on failure patch the record to
`status = "error"` carrying the failure message and re-throw the same
message; on success patch the derived status/verification fields. -/
def refreshStatus (st : Registry) (id : Nat)
    (fetchConfig : Except String VercelDomainConfigResponse) (now : Nat) :
    Registry × Except String (Nat × String) :=
  match customDomainsGet st id with
  | none => (st, .error "Custom domain not found.")
  | some record =>
    match fetchConfig with
    | .error msg =>
      let patched := customDomainsUpdateStatus st
        { id, status := "error",
          verificationType := record.verificationType,
          verificationName := record.verificationName,
          verificationValue := record.verificationValue,
          vercelDomainId := record.vercelDomainId,
          error := some msg } now
      (patched.1, .error msg)
    | .ok config =>
      let dns := Part000.deriveDnsInstruction record.domain config
      let patched := customDomainsUpdateStatus st
        { id, status := dns.status,
          verificationType := dns.verificationType,
          verificationName := dns.verificationName,
          verificationValue := dns.verificationValue,
          vercelDomainId := record.vercelDomainId,
          error := none } now
      (patched.1, .ok (id, dns.status))

/-- Model of `customDomains.removeFromProject` (action): a missing record is a
no-op success; otherwise a best-effort provider detach (its result is
discarded — both `deleteDomain` and the call site swallow failures)
followed by unconditional deletion of the local record. -/
def removeFromProject (st : Registry) (id : Nat) (detach : Except String Unit) :
    Registry × Except String Unit :=
  match customDomainsGet st id with
  | none => (st, .ok ())
  | some _ =>
    let _ := deleteDomain detach
    customDomainsRemove st id

/-! ## http.ts — by-subdomain tenant config endpoint -/

/-- A JSON response body: either `{error}` or the public site fields. -/
inductive HttpBody where
  | err : String → HttpBody
  | site : PublicSiteConfig → HttpBody
deriving DecidableEq, Repr

/-- An HTTP response (status code and JSON body). -/
structure HttpResponse where
  status : Nat
  body : HttpBody
deriving DecidableEq, Repr

/-- The 400 message of the by-subdomain endpoint. -/
def invalidSubdomainMessage : String :=
  "Invalid subdomain. Use only letters, numbers and dashes, do not start or end with a dash, and avoid reserved names like admin or www."

/-- The subdomain the endpoint extracts from a request path: the last
non-empty `/`-separated segment (or `""`), trimmed and lowercased. -/
def subdomainOfPath (pathname : String) : String :=
  let segments := (splitOnChar '/' pathname.data).filter (fun l => !l.isEmpty)
  jsToLower (jsTrim ⟨segments.getLastD []⟩)

/-- The guard of the by-subdomain endpoint:
`!subdomain || !pattern.test(subdomain) || reserved.has(subdomain)`. -/
def subdomainRejected (subdomain : String) : Bool :=
  subdomain = "" || !matchesSubdomainPattern subdomain ||
    (subdomain = "admin" || subdomain = "www")

/-- Model of `getSiteBySubdomain` (http.ts): 400 for a rejected subdomain, else
run the `sites.getBySubdomain` query (whose own throw — e.g. its length
validation — escapes the handler as `Except.error`), answering 404 when
no site matches and 200 with the public fields otherwise. -/
def httpGetSiteBySubdomain (st : Registry) (pathname : String) :
    Except String HttpResponse :=
  let subdomain := subdomainOfPath pathname
  if subdomainRejected subdomain then
    .ok { status := 400, body := .err invalidSubdomainMessage }
  else
    match sitesGetBySubdomain st subdomain with
    | .error e => .error e
    | .ok none => .ok { status := 404, body := .err "Site not found" }
    | .ok (some (site, faviconUrl)) =>
      let body : PublicSiteConfig :=
        { name := site.name, subdomain := site.subdomain, title := site.title,
          description := site.description, primaryColor := site.primaryColor,
          secondaryColor := site.secondaryColor, faviconUrl := faviconUrl }
      .ok { status := 200, body := .site body }

/-! ## siteConfig.ts — hostname resolver -/

/-- The matching closure of the resolver:
`host === domain || host.endsWith("." + domain)`. -/
def rootMatches (host : List Char) (d : String) : Bool :=
  host = d.data || decide (('.' :: d.data) <:+ host)

/-- Model of `getSubdomainFromHost` (src/app/siteConfig.ts), with the
parsed wildcard-domain list passed explicitly (the source reads it from
the environment): lowercase the hostname, find the first configured root
the host equals or ends with (preceded by a dot), refuse the bare root,
strip the dot and root, and take the first dot-separated label of what
remains. -/
def getSubdomainFromHost (wildcardDomains : List String) (hostname : String) :
    Option String :=
  if wildcardDomains.isEmpty then none
  else
    let host := (jsToLower hostname).data
    match wildcardDomains.find? (rootMatches host) with
    | none => none
    | some matchedRoot =>
      if host = matchedRoot.data then none
      else
        let subdomainPart := host.take (host.length - (matchedRoot.data.length + 1))
        if subdomainPart.isEmpty then none
        else
          let subdomain := (splitOnChar '.' subdomainPart).getD 0 []
          if subdomain.isEmpty then none else some ⟨subdomain⟩

example : getSubdomainFromHost ["example.com"] "Tenant.Example.com" = some "tenant" := by rfl
example : getSubdomainFromHost ["example.com"] "a.b.example.com" = some "a" := by rfl
example : getSubdomainFromHost ["example.com"] "example.com" = none := by rfl
example : getSubdomainFromHost [] "a.example.com" = none := by rfl
example : getSubdomainFromHost ["a.example.com", "example.com"] "a.example.com" = none := by rfl

/-! ## Claim theorems -/

/-- C2: the apex-aware `deriveDnsInstruction` implements the documented
selection policy: a two-label (apex) domain prefers an A record from the
first recommended-IPv4 entry (when it carries a value) and falls back to
a CNAME from the recommended-CNAME list; a domain with three or more
labels prefers CNAME and falls back to A; with neither recommendation the
instruction carries no verification type/name/value. -/
theorem deriveDnsInstruction_implements_policy (domain : String)
    (config : VercelDomainConfigResponse) :
    Part000.deriveDnsInstruction domain config = deriveDnsInstructionPolicy domain config := by
  unfold Part000.deriveDnsInstruction deriveDnsInstructionPolicy
  by_cases hApex : (domainLabels domain).length = 2 <;>
    rcases hA : firstIPv4 config with _ | v <;>
      rcases hC : config.recommendedCNAME.head? with _ | c <;>
        simp [hApex, hA, hC]

/-- C9 (counterexample): on the apex domain `example.com` with a config
carrying both a CNAME recommendation and a non-empty IPv4 recommendation
the two `deriveDnsInstruction` copies disagree (CNAME vs A), so they are
not extensionally equal. -/
theorem deriveDnsInstruction_copies_differ :
    ConvexVercel.deriveDnsInstruction "example.com"
        { configuredBy := none, acceptedChallenges := [],
          recommendedIPv4 := [{ rank := 0, value := ["76.76.21.21"] }],
          recommendedCNAME := [{ rank := 0, value := "cname.vercel-dns.com" }],
          misconfigured := false }
      ≠ Part000.deriveDnsInstruction "example.com"
        { configuredBy := none, acceptedChallenges := [],
          recommendedIPv4 := [{ rank := 0, value := ["76.76.21.21"] }],
          recommendedCNAME := [{ rank := 0, value := "cname.vercel-dns.com" }],
          misconfigured := false } := by decide

/-- C9 (amended): the two `deriveDnsInstruction` copies agree on an input
exactly when it is not the case that the domain is apex (two labels) and
the config carries both a CNAME recommendation and a first IPv4
recommendation with a value (on those inputs the convex copy answers
CNAME while the part_000 copy answers A). -/
theorem deriveDnsInstruction_copies_agree_iff (domain : String)
    (config : VercelDomainConfigResponse) :
    (ConvexVercel.deriveDnsInstruction domain config
        = Part000.deriveDnsInstruction domain config)
      ↔ ¬ ((domainLabels domain).length = 2
            ∧ (config.recommendedCNAME.head?).isSome ∧ (firstIPv4 config).isSome) := by
  unfold ConvexVercel.deriveDnsInstruction Part000.deriveDnsInstruction
  by_cases hApex : (domainLabels domain).length = 2 <;>
    rcases hA : firstIPv4 config with _ | v <;>
      rcases hC : config.recommendedCNAME.head? with _ | c <;>
        simp [hApex, hA, hC]

/-- C6 (counterexample): `normalizeDomain "host."` succeeds with
`"host"`, a result with no remaining dot — the validation error is
decided before the trailing dot is stripped, so "fails exactly when no
dot remains after normalization" is false as stated. -/
theorem normalizeDomain_trailing_dot_counterexample :
    normalizeDomain "host." = .ok "host" ∧ "host".data.contains '.' = false :=
  ⟨rfl, by decide⟩

/-- C6 (amended): `normalizeDomain` lowercases its trimmed input, strips
an http/https scheme and any path, and fails exactly when the trimmed
input is empty or no dot is present after scheme/path stripping — a check
made before the trailing dot is stripped. In particular
`normalizeDomain "HTTPS://Example.com/path" = ok "example.com"` and
`normalizeDomain "nodothost"` raises. -/
theorem normalizeDomain_spec :
    normalizeDomain "HTTPS://Example.com/path" = .ok "example.com"
    ∧ (∃ e, normalizeDomain "nodothost" = .error e)
    ∧ ∀ raw, (∃ e, normalizeDomain raw = .error e) ↔
        ((jsToLower (jsTrim raw)).data = []
          ∨ ((stripScheme (jsToLower (jsTrim raw)).data).takeWhile (· ≠ '/')).contains '.'
              = false) := by
  refine ⟨rfl, ⟨_, rfl⟩, fun raw => ?_⟩
  unfold normalizeDomain
  rcases h0 : (jsToLower (jsTrim raw)).data with _ | ⟨c, cs⟩
  · simp
  · rw [if_neg (by simp)]
    by_cases hdot : ((stripScheme (c :: cs)).takeWhile (· ≠ '/')).contains '.' = true
    · rw [if_neg (not_not_intro hdot)]
      rw [hdot]
      simp
    · rw [if_pos hdot]
      rw [Bool.not_eq_true] at hdot
      rw [hdot]
      simp

/-- C5: `removeFromProject` always succeeds — a missing record is a no-op
success, and for an existing record the detach outcome (the `detach`
parameter, arbitrary here) is swallowed while the local record is
unconditionally deleted; sites and the rest of the registry are
untouched. -/
theorem removeFromProject_spec (st : Registry) (id : Nat) (detach : Except String Unit) :
    (removeFromProject st id detach).2 = .ok ()
    ∧ (removeFromProject st id detach).1.customDomains
        = st.customDomains.filter (fun r => ¬ r.id = id)
    ∧ (removeFromProject st id detach).1.sites = st.sites
    ∧ (removeFromProject st id detach).1.nextId = st.nextId := by
  unfold removeFromProject customDomainsRemove
  rcases hget : customDomainsGet st id with _ | record
  · have hall := List.find?_eq_none.mp hget
    have hfix : List.filter (fun r => !decide (r.id = id)) st.customDomains
        = st.customDomains := by
      apply List.filter_eq_self.mpr
      intro a ha
      simpa using hall a ha
    simp [hfix]
  · simp

/-- C7: when some existing site already holds subdomain `s` and the
requested subdomain normalizes to `s`, `sites.create` fails with the
conflict error and returns the registry exactly unchanged (the existing
site is as before and nothing was inserted). -/
theorem sitesCreate_conflict (st : Registry) (args : SiteCreateArgs) (now : Nat)
    (s : String)
    (hnorm : normalizeAndValidateSubdomain args.subdomain = .ok s)
    (hex : ∃ site ∈ st.sites, site.subdomain = s) :
    sitesCreate st args now = (st, .error "Subdomain is already in use.") := by
  unfold sitesCreate
  rw [hnorm]
  rcases hfind : findBySubdomain st s with _ | site
  · exfalso
    obtain ⟨site, hmem, hsub⟩ := hex
    have := List.find?_eq_none.mp hfind site hmem
    simp [hsub] at this
  · simp [hfind]

/-- A sample site used by concrete witnesses below. -/
def siteAcme : Site :=
  { id := 1, name := "Acme", subdomain := "acme", title := "Acme Inc",
    description := "d", primaryColor := "#ffffff", secondaryColor := "#000000",
    faviconStorageId := none, createdAt := 0, updatedAt := 0 }

/-- A sample registry holding exactly `siteAcme` and no custom domains. -/
def regWithAcme : Registry :=
  { sites := [siteAcme], customDomains := [], nextId := 2, storageUrl := fun _ => none }

/-- Witness for `sitesCreate_conflict`: creating `" ACME "` (which
normalizes to `"acme"`) against a registry already holding `"acme"`
conflicts and leaves the registry unchanged. -/
theorem sitesCreate_conflict_witness :
    sitesCreate regWithAcme
      { name := "Other", subdomain := " ACME ", title := "t", description := "d",
        primaryColor := "p", secondaryColor := "s", faviconStorageId := none } 5
      = (regWithAcme, .error "Subdomain is already in use.") :=
  sitesCreate_conflict regWithAcme _ 5 "acme" (by rfl)
    ⟨siteAcme, by simp [regWithAcme], rfl⟩

/-- C10: `getSiteByDomain` answers `none` (rather than throwing) when the
trimmed lowercased domain is empty, when no custom-domain record matches
it, or when the matching record's `siteId` no longer resolves to a site;
and `sites.remove` never touches `customDomains` (no cascade), so such
orphans surface as a not-found result. -/
theorem getSiteByDomain_orphan_tolerant (st : Registry) (rawDomain : String)
    (siteId : Nat)
    (h : jsToLower (jsTrim rawDomain) = ""
        ∨ findByDomain st (jsToLower (jsTrim rawDomain)) = none
        ∨ ∃ record, findByDomain st (jsToLower (jsTrim rawDomain)) = some record
            ∧ st.sites.find? (fun s => s.id = record.siteId) = none) :
    getSiteByDomain st rawDomain = none
    ∧ (sitesRemove st siteId).1.customDomains = st.customDomains := by
  refine ⟨?_, rfl⟩
  unfold getSiteByDomain
  by_cases hd : jsToLower (jsTrim rawDomain) = ""
  · rw [if_pos hd]
  · rw [if_neg hd]
    rcases h with h | h | ⟨record, hrec, hsite⟩
    · exact absurd h hd
    · simp [h]
    · simp [hrec, hsite]

/-- An orphaned custom-domain record: its `siteId` (99) matches no site. -/
def orphanDomainRecord : CustomDomain :=
  { id := 3, siteId := 99, domain := "kooft.com", redirectFromWww := false,
    status := "active", verificationType := none, verificationName := none,
    verificationValue := none, vercelDomainId := none, error := none,
    createdAt := 0, updatedAt := 0 }

/-- A registry holding only an orphaned custom-domain record. -/
def regOrphan : Registry :=
  { sites := [], customDomains := [orphanDomainRecord], nextId := 4,
    storageUrl := fun _ => none }

/-- Witness for `getSiteByDomain_orphan_tolerant`: querying the orphaned
domain (in mixed case, with stray whitespace) yields `none`. -/
theorem getSiteByDomain_orphan_witness :
    getSiteByDomain regOrphan "Kooft.com " = none :=
  (getSiteByDomain_orphan_tolerant regOrphan "Kooft.com " 0
    (Or.inr (Or.inr ⟨orphanDomainRecord, by rfl, by rfl⟩))).1

/-- Patching via `updateStatus` preserves every other record and turns
the targeted record into its patched version. -/
theorem customDomainsGet_updateStatus (st : Registry) (args : UpdateStatusArgs)
    (now : Nat) (record : CustomDomain)
    (hget : customDomainsGet st args.id = some record) :
    customDomainsGet (customDomainsUpdateStatus st args now).1 args.id
      = some { record with
          status := args.status
          verificationType := patchOpt args.verificationType record.verificationType
          verificationName := patchOpt args.verificationName record.verificationName
          verificationValue := patchOpt args.verificationValue record.verificationValue
          vercelDomainId := patchOpt args.vercelDomainId record.vercelDomainId
          error := patchOpt args.error record.error
          updatedAt := now } := by
  unfold customDomainsGet customDomainsUpdateStatus at *
  rw [List.find?_map]
  have hid : record.id = args.id := by
    have := List.find?_some hget
    simpa using this
  have hcomp :
      ((fun (r : CustomDomain) => decide (r.id = args.id)) ∘ (fun r =>
        if r.id = args.id then
          { r with
            status := args.status
            verificationType := patchOpt args.verificationType r.verificationType
            verificationName := patchOpt args.verificationName r.verificationName
            verificationValue := patchOpt args.verificationValue r.verificationValue
            vercelDomainId := patchOpt args.vercelDomainId r.vercelDomainId
            error := patchOpt args.error r.error
            updatedAt := now }
        else r))
      = (fun (r : CustomDomain) => decide (r.id = args.id)) := by
    funext r
    by_cases hr : r.id = args.id <;> simp [hr]
  rw [hcomp, hget]
  simp [hid]

/-- C4: when the record exists and the provider config fetch fails with
message `msg`, `refreshStatus` both patches the record to
`status = "error"` with `msg` stored in its `error` field and re-throws
the same `msg`; and `refreshStatus` on a missing record is an error (not
a no-op success). -/
theorem refreshStatus_spec (st : Registry) (id : Nat) (msg : String) (now : Nat) :
    ((customDomainsGet st id).isSome = true →
      (refreshStatus st id (.error msg) now).2 = .error msg
      ∧ ∃ r, customDomainsGet (refreshStatus st id (.error msg) now).1 id = some r
          ∧ r.status = "error" ∧ r.error = some msg)
    ∧ (customDomainsGet st id = none →
        ∀ fetch, refreshStatus st id fetch now = (st, .error "Custom domain not found.")) := by
  constructor
  · intro hsome
    obtain ⟨record, hget⟩ := Option.isSome_iff_exists.mp hsome
    have hpatched := customDomainsGet_updateStatus st
      { id, status := "error",
        verificationType := record.verificationType,
        verificationName := record.verificationName,
        verificationValue := record.verificationValue,
        vercelDomainId := record.vercelDomainId,
        error := some msg } now record hget
    constructor
    · unfold refreshStatus
      simp [hget]
    · refine ⟨{ record with
          status := "error"
          verificationType := patchOpt record.verificationType record.verificationType
          verificationName := patchOpt record.verificationName record.verificationName
          verificationValue := patchOpt record.verificationValue record.verificationValue
          vercelDomainId := patchOpt record.vercelDomainId record.vercelDomainId
          error := some msg
          updatedAt := now }, ?_, rfl, rfl⟩
      unfold refreshStatus
      simp only [hget]
      exact hpatched
  · intro hnone fetch
    unfold refreshStatus
    rw [hnone]

/-- A pending custom-domain record (id 5) owned by `siteAcme`. -/
def pendingKooftRecord : CustomDomain :=
  { id := 5
    siteId := 1
    domain := "kooft.com"
    redirectFromWww := false
    status := "pending"
    verificationType := some "A"
    verificationName := some "kooft.com"
    verificationValue := some "76.76.21.21"
    vercelDomainId := none
    error := none
    createdAt := 0
    updatedAt := 0 }

/-- A registry holding `siteAcme` and one pending custom domain (id 5). -/
def regWithDomain : Registry :=
  { sites := [siteAcme], customDomains := [pendingKooftRecord], nextId := 6,
    storageUrl := fun _ => none }

/-- Witness for `refreshStatus_spec`: a failing fetch on record 5 patches
it to an error status and re-throws; refreshing the missing id 5 of the
orphan registry throws "Custom domain not found.". -/
theorem refreshStatus_spec_witness :
    ((refreshStatus regWithDomain 5 (.error "boom") 9).2 = .error "boom"
      ∧ ∃ r, customDomainsGet (refreshStatus regWithDomain 5 (.error "boom") 9).1 5 = some r
          ∧ r.status = "error" ∧ r.error = some "boom")
    ∧ refreshStatus regOrphan 5 (.error "unreached") 9
        = (regOrphan, .error "Custom domain not found.") :=
  ⟨(refreshStatus_spec regWithDomain 5 "boom" 9).1 (by rfl),
   (refreshStatus_spec regOrphan 5 "boom" 9).2 (by rfl) (.error "unreached")⟩

/-- A derived instruction's status is `"pending"` or `"active"`, never
`"error"`. -/
theorem deriveDnsInstruction_status_ne_error (domain : String)
    (cfg : VercelDomainConfigResponse) :
    (Part000.deriveDnsInstruction domain cfg).status ≠ "error" := by
  unfold Part000.deriveDnsInstruction
  by_cases hApex : (domainLabels domain).length = 2 <;>
    rcases hA : firstIPv4 cfg with _ | v <;>
      rcases hC : cfg.recommendedCNAME.head? with _ | c <;>
        cases hm : cfg.misconfigured <;>
          simp [hApex, hA, hC, hm]

/-- C1 (amended): in the attach workflow with `redirectFromWww = true`,
when the apex steps succeed and the `www` attach fails with `msg` — or
the `www` attach succeeds and the subsequent `www` config fetch fails
with `msg` — the already-inserted apex record is kept: the registry
gains exactly the one apex row, whose status is the derived one and
never `"error"`, but no record for `www.<apex>` is created; the failure
propagates to the caller as the action's error. -/
theorem createForSite_www_attach_failure (st : Registry) (siteId : Nat)
    (raw apexDomain msg : String) (cfg : VercelDomainConfigResponse)
    (aww : Except String Unit) (fww : Except String VercelDomainConfigResponse)
    (now : Nat)
    (hnorm : normalizeDomain raw = .ok apexDomain)
    (hnodup : findByDomain st apexDomain = none)
    (hfail : aww = .error msg ∨ (aww = .ok () ∧ fww = .error msg)) :
    (createForSite st { siteId, domain := raw, redirectFromWww := true }
        { attachApex := .ok (), fetchApex := .ok cfg, attachWww := aww,
          fetchWww := fww } now).2 = .error msg
    ∧ ∃ rec,
        (createForSite st { siteId, domain := raw, redirectFromWww := true }
            { attachApex := .ok (), fetchApex := .ok cfg, attachWww := aww,
              fetchWww := fww } now).1.customDomains
          = st.customDomains ++ [rec]
        ∧ rec.domain = apexDomain
        ∧ rec.status = (Part000.deriveDnsInstruction apexDomain cfg).status
        ∧ rec.status ≠ "error" := by
  rcases hfail with rfl | ⟨rfl, rfl⟩ <;>
  · unfold createForSite customDomainsInsert
    simp only [hnorm, hnodup]
    exact ⟨rfl, ⟨_, rfl, rfl, rfl, deriveDnsInstruction_status_ne_error apexDomain cfg⟩⟩

/-- A provider config: misconfigured, with one IPv4 recommendation. -/
def cfgPendingA : VercelDomainConfigResponse :=
  { configuredBy := none
    acceptedChallenges := []
    recommendedIPv4 := [{ rank := 0, value := ["76.76.21.21"] }]
    recommendedCNAME := []
    misconfigured := true }

/-- Provider outcomes where the apex attach/fetch succeed and the `www`
attach (and fetch) fail. -/
def wwwFailOutcomes : ProviderOutcomes :=
  { attachApex := .ok ()
    fetchApex := .ok cfgPendingA
    attachWww := .error "www attach failed"
    fetchWww := .error "www attach failed" }

/-- C1 (counterexample): with `redirectFromWww = true` and a failing
`www` attach, the resulting registry contains exactly one custom-domain
row, for the apex `example.com` — no row for `www.example.com` (let alone
one with `status = "error"`) — and the action surfaces the failure. -/
theorem createForSite_www_failure_no_www_record :
    ((createForSite regWithAcme
        { siteId := 1, domain := "example.com", redirectFromWww := true }
        wwwFailOutcomes 7).1.customDomains.map (fun r => r.domain))
      = ["example.com"]
    ∧ (createForSite regWithAcme
        { siteId := 1, domain := "example.com", redirectFromWww := true }
        wwwFailOutcomes 7).2 = .error "www attach failed" :=
  ⟨by decide, rfl⟩

/-- Witness for `createForSite_www_attach_failure`, exercising both
failure modes of the amended claim at concrete inputs: a failing `www`
attach, and a successful `www` attach followed by a failing `www` config
fetch. -/
theorem createForSite_www_attach_failure_witness :
    (createForSite regWithAcme
        { siteId := 1, domain := "example.com", redirectFromWww := true }
        { attachApex := .ok (), fetchApex := .ok cfgPendingA,
          attachWww := .error "www attach failed",
          fetchWww := .error "www attach failed" } 7).2
      = .error "www attach failed"
    ∧ (createForSite regWithAcme
        { siteId := 1, domain := "example.com", redirectFromWww := true }
        { attachApex := .ok (), fetchApex := .ok cfgPendingA,
          attachWww := .ok (),
          fetchWww := .error "www config fetch failed" } 7).2
      = .error "www config fetch failed" :=
  ⟨(createForSite_www_attach_failure regWithAcme 1 "example.com" "example.com"
      "www attach failed" cfgPendingA (.error "www attach failed")
      (.error "www attach failed") 7 rfl rfl (Or.inl rfl)).1,
   (createForSite_www_attach_failure regWithAcme 1 "example.com" "example.com"
      "www config fetch failed" cfgPendingA (.ok ())
      (.error "www config fetch failed") 7 rfl rfl (Or.inr ⟨rfl, rfl⟩)).1⟩

/-- Every character of a list lands either in some component of its
single-character split or is the separator itself. -/
theorem mem_splitOnChar (sep : Char) :
    ∀ (l : List Char) (c : Char), c ∈ l →
      c = sep ∨ ∃ p ∈ splitOnChar sep l, c ∈ p := by
  intro l
  induction l with
  | nil => intro c hc; cases hc
  | cons a as ih =>
    intro c hc
    rcases List.mem_cons.mp hc with rfl | hc'
    · by_cases ha : c = sep
      · exact Or.inl ha
      · right
        rcases hrest : splitOnChar sep as with _ | ⟨r, rs⟩
        · exact absurd hrest (splitOnChar_ne_nil sep as)
        · refine ⟨c :: r, ?_, by simp⟩
          simp [splitOnChar, ha, hrest]
    · rcases ih c hc' with hsep | ⟨p, hp, hcp⟩
      · exact Or.inl hsep
      · right
        by_cases ha : a = sep
        · exact ⟨p, by simp [splitOnChar, ha, hp], hcp⟩
        · rcases hrest : splitOnChar sep as with _ | ⟨r, rs⟩
          · exact absurd hrest (splitOnChar_ne_nil sep as)
          · rw [hrest] at hp
            rcases List.mem_cons.mp hp with rfl | hp'
            · exact ⟨a :: p, by simp [splitOnChar, ha, hrest], by simp [hcp]⟩
            · exact ⟨p, by simp [splitOnChar, ha, hrest, hp'], hcp⟩

/-- Characters of a pattern-valid subdomain are lowercase alphanumerics
or dashes. -/
theorem matchesSubdomainPattern_chars (s : String)
    (h : matchesSubdomainPattern s = true) :
    ∀ c ∈ s.data, isSubdomainChar c = true ∨ c = '-' := by
  intro c hc
  rcases mem_splitOnChar '-' s.data c hc with hsep | ⟨p, hp, hcp⟩
  · exact Or.inr hsep
  · left
    unfold matchesSubdomainPattern at h
    have := (List.all_eq_true.mp h) p hp
    have hall := (Bool.and_eq_true _ _ |>.mp this).2
    exact (List.all_eq_true.mp hall) c hcp

/-- A lowercase alphanumeric or dash is fixed by ASCII lowering and is
not whitespace. -/
theorem subdomainChar_fixed (c : Char) (h : isSubdomainChar c = true ∨ c = '-') :
    lowerChar c = c ∧ c.isWhitespace = false := by
  rcases h with h | rfl
  · unfold isSubdomainChar at h
    simp only [decide_eq_true_eq] at h
    constructor
    · unfold lowerChar
      rw [if_neg]
      rintro ⟨hA, hZ⟩
      rcases h with ⟨h1, h2⟩ | ⟨h1, h2⟩
      · exact absurd (le_trans h1 hZ) (by decide)
      · exact absurd (le_trans hA h2) (by decide)
    · show (c = ' ' || c = '\t' || c = '\r' || c = '\n') = false
      rcases h with ⟨h1, h2⟩ | ⟨h1, h2⟩ <;>
        · simp only [Bool.or_eq_false_iff, decide_eq_false_iff_not]
          refine ⟨⟨⟨?_, ?_⟩, ?_⟩, ?_⟩ <;> rintro rfl <;> revert h1 h2 <;> decide
  · exact ⟨by decide, by decide⟩

/-- ASCII lowering fixes a string whose characters it fixes. -/
theorem jsToLower_eq_self (s : String) (h : ∀ c ∈ s.data, lowerChar c = c) :
    jsToLower s = s := by
  unfold jsToLower
  have : s.data.map lowerChar = s.data.map id := List.map_congr_left (by simpa using h)
  rw [this, List.map_id]

/-- Trimming fixes a string with no whitespace characters. -/
theorem jsTrim_eq_self (s : String) (h : ∀ c ∈ s.data, c.isWhitespace = false) :
    jsTrim s = s := by
  have hdrop : ∀ (l : List Char), (∀ c ∈ l, c.isWhitespace = false) →
      l.dropWhile Char.isWhitespace = l := by
    intro l hl
    cases l with
    | nil => rfl
    | cons a as => simp [List.dropWhile, hl a (by simp)]
  unfold jsTrim
  rw [hdrop _ h]
  rw [hdrop _ (by intro c hc; exact h c (List.mem_reverse.mp hc))]
  rw [List.reverse_reverse]

/-- A pattern-valid subdomain is fixed by the endpoint's trim+lowercase
renormalization. -/
theorem subdomain_renormalize_fixed (s : String)
    (hp : matchesSubdomainPattern s = true) :
    jsToLower (jsTrim s) = s := by
  have hchars := matchesSubdomainPattern_chars s hp
  have htrim : jsTrim s = s :=
    jsTrim_eq_self s (fun c hc => (subdomainChar_fixed c (hchars c hc)).2)
  rw [htrim]
  exact jsToLower_eq_self s (fun c hc => (subdomainChar_fixed c (hchars c hc)).1)

/-- On an already-normalized pattern-valid subdomain the validator only
checks the length. -/
theorem normalizeAndValidateSubdomain_of_fixed (s : String)
    (hp : matchesSubdomainPattern s = true) (hne : s ≠ "") :
    normalizeAndValidateSubdomain s
      = if s.data.length < 3 ∨ s.data.length > 63 then
          .error "Subdomain must be between 3 and 63 characters."
        else .ok s := by
  unfold normalizeAndValidateSubdomain
  rw [subdomain_renormalize_fixed s hp]
  rw [if_neg hne]
  by_cases hlen : s.data.length < 3 ∨ s.data.length > 63
  · rw [if_pos hlen, if_pos hlen]
  · rw [if_neg hlen, if_neg hlen, if_neg (not_not_intro hp)]

/-- Unpacking of a passed endpoint guard. -/
theorem subdomainRejected_false (s : String) (h : subdomainRejected s = false) :
    s ≠ "" ∧ matchesSubdomainPattern s = true ∧ s ≠ "admin" ∧ s ≠ "www" := by
  unfold subdomainRejected at h
  simp only [Bool.or_eq_false_iff, Bool.not_eq_false', decide_eq_false_iff_not] at h
  exact ⟨h.1.1, h.1.2, h.2.1, h.2.2⟩

/-- C8 (amended): the by-subdomain endpoint answers 400 with an error
body exactly for a last path segment that is empty, pattern-invalid or
reserved; for a pattern-valid subdomain whose length is outside 3–63 the
underlying query's validation throw escapes the handler (no 400); and
otherwise the endpoint answers 404 with an error body for an unknown
subdomain and 200 with the public fields for an existing one. -/
theorem httpGetSiteBySubdomain_spec (st : Registry) (pathname : String) :
    (subdomainRejected (subdomainOfPath pathname) = true →
      httpGetSiteBySubdomain st pathname
        = .ok { status := 400, body := .err invalidSubdomainMessage })
    ∧ (subdomainRejected (subdomainOfPath pathname) = false →
        ((subdomainOfPath pathname).data.length < 3
          ∨ (subdomainOfPath pathname).data.length > 63) →
        httpGetSiteBySubdomain st pathname
          = .error "Subdomain must be between 3 and 63 characters.")
    ∧ (subdomainRejected (subdomainOfPath pathname) = false →
        ¬ ((subdomainOfPath pathname).data.length < 3
            ∨ (subdomainOfPath pathname).data.length > 63) →
        findBySubdomain st (subdomainOfPath pathname) = none →
        httpGetSiteBySubdomain st pathname
          = .ok { status := 404, body := .err "Site not found" })
    ∧ (subdomainRejected (subdomainOfPath pathname) = false →
        ¬ ((subdomainOfPath pathname).data.length < 3
            ∨ (subdomainOfPath pathname).data.length > 63) →
        ∀ site, findBySubdomain st (subdomainOfPath pathname) = some site →
        httpGetSiteBySubdomain st pathname
          = .ok { status := 200, body := .site (publicProjection st site) }) := by
  refine ⟨?_, ?_, ?_, ?_⟩
  · intro hrej
    unfold httpGetSiteBySubdomain
    rw [if_pos hrej]
  · intro hrej hlen
    obtain ⟨hne, hp, _, _⟩ := subdomainRejected_false _ hrej
    unfold httpGetSiteBySubdomain
    rw [if_neg (by simp [hrej])]
    unfold sitesGetBySubdomain
    rw [normalizeAndValidateSubdomain_of_fixed _ hp hne, if_pos hlen]
  · intro hrej hlen hfind
    obtain ⟨hne, hp, _, _⟩ := subdomainRejected_false _ hrej
    unfold httpGetSiteBySubdomain
    rw [if_neg (by simp [hrej])]
    unfold sitesGetBySubdomain
    rw [normalizeAndValidateSubdomain_of_fixed _ hp hne, if_neg hlen]
    simp [hfind]
  · intro hrej hlen site hfind
    obtain ⟨hne, hp, _, _⟩ := subdomainRejected_false _ hrej
    unfold httpGetSiteBySubdomain
    rw [if_neg (by simp [hrej])]
    unfold sitesGetBySubdomain
    rw [normalizeAndValidateSubdomain_of_fixed _ hp hne, if_neg hlen]
    simp [hfind, publicProjection]

/-- C8 (counterexample): `GET /ab` carries a pattern-valid subdomain of
length 2; the endpoint does not answer 400 (nor 404/200) — the length
validation inside `sites.getBySubdomain` throws out of the handler. -/
theorem httpGetSiteBySubdomain_short_subdomain :
    httpGetSiteBySubdomain regWithAcme "/ab"
      = .error "Subdomain must be between 3 and 63 characters." := rfl

/-- Witness for `httpGetSiteBySubdomain_spec` on concrete requests:
200 for path acme, 400 for the dash-leading segment, 404 for zzzz. -/
theorem httpGetSiteBySubdomain_spec_witness :
    httpGetSiteBySubdomain regWithAcme "/acme"
      = .ok { status := 200, body := .site (publicProjection regWithAcme siteAcme) }
    ∧ httpGetSiteBySubdomain regWithAcme "/-bad"
      = .ok { status := 400, body := .err invalidSubdomainMessage }
    ∧ httpGetSiteBySubdomain regWithAcme "/zzzz"
      = .ok { status := 404, body := .err "Site not found" } :=
  ⟨(httpGetSiteBySubdomain_spec regWithAcme "/acme").2.2.2 (by rfl) (by decide)
      siteAcme (by rfl),
   (httpGetSiteBySubdomain_spec regWithAcme "/-bad").1 (by rfl),
   (httpGetSiteBySubdomain_spec regWithAcme "/zzzz").2.2.1 (by rfl) (by decide) (by rfl)⟩

/-- Two decompositions of one list around the same separator, with a
separator-free first part, force the separator-free prefix: the part
before the first separator of the left decomposition is exactly `A`. -/
theorem takeWhile_eq_of_append_cons (x : Char) :
    ∀ (A Q rs ra : List Char), Q ++ x :: rs = A ++ x :: ra → x ∉ A →
      Q.takeWhile (· ≠ x) = A := by
  intro A
  induction A with
  | nil =>
    intro Q rs ra heq _
    cases Q with
    | nil => rfl
    | cons q Q' =>
      have hq : q = x := by simpa using congrArg List.head? heq
      simp [List.takeWhile, hq]
  | cons a A' ih =>
    intro Q rs ra heq hnm
    have hax : a ≠ x := fun h => hnm (by simp [h])
    have hxA : x ∉ A' := fun h => hnm (by simp [h])
    cases Q with
    | nil =>
      exfalso
      have : x = a := by simpa using congrArg List.head? heq
      exact hax this.symm
    | cons q Q' =>
      have hq : q = a := by simpa using congrArg List.head? heq
      have htail : Q' ++ x :: rs = A' ++ x :: ra := by
        simpa [hq] using congrArg List.tail heq
      subst hq
      have hih := ih Q' rs ra htail hxA
      simp only [ne_eq, decide_not] at hih
      simp [List.takeWhile, hax, hih]

/-- C3 (amended): for a lowercase hostname `h` that is not itself one of
the configured roots, if `h = sub ++ "." ++ r` for some configured root
`r`, with `sub` non-empty and dot-free, the resolver yields `sub`; and
when several labels precede the matched root, the first label is taken
(`a.b.example.com` against root `example.com` resolves to `a`). -/
theorem getSubdomainFromHost_spec :
    (∀ (R : List String) (h sub r : String),
        jsToLower h = h → h ∉ R → r ∈ R → h = sub ++ "." ++ r → sub ≠ "" →
        '.' ∉ sub.data →
        getSubdomainFromHost R h = some sub)
    ∧ getSubdomainFromHost ["example.com"] "a.b.example.com" = some "a" := by
  refine ⟨?_, rfl⟩
  intro R h sub r hlow hnot hrR heq hsubne hsubnd
  have hsubdata : sub.data ≠ [] := fun h0 => hsubne (congrArg String.mk h0)
  have hd : h.data = sub.data ++ '.' :: r.data := by
    rw [heq]
    simp [String.data_append]
  unfold getSubdomainFromHost
  rw [if_neg (fun hE => (List.ne_nil_of_mem hrR) (List.isEmpty_iff.mp hE))]
  rw [hlow]
  have hPr : rootMatches h.data r = true := by
    have hsuf : ('.' :: r.data) <:+ h.data := ⟨sub.data, hd.symm⟩
    simp [rootMatches, hsuf]
  obtain ⟨r', hfind⟩ :=
    Option.isSome_iff_exists.mp (List.find?_isSome.mpr ⟨r, hrR, hPr⟩)
  have hmem : r' ∈ R := List.mem_of_find?_eq_some hfind
  have hhr' : ¬ (h.data = r'.data) := by
    intro hE
    have hhr : h = r' := congrArg String.mk hE
    exact hnot (by rwa [hhr])
  have hP' := List.find?_some hfind
  have hsuf' : ('.' :: r'.data) <:+ h.data := by
    rcases Bool.or_eq_true _ _ |>.mp hP' with hcase | hcase
    · exact absurd (of_decide_eq_true hcase) hhr'
    · exact of_decide_eq_true hcase
  obtain ⟨Q, hQ⟩ := hsuf'
  have hQsub : Q.takeWhile (· ≠ '.') = sub.data :=
    takeWhile_eq_of_append_cons '.' sub.data Q r'.data r.data (hQ.trans hd) hsubnd
  have hQne : Q ≠ [] := by
    intro h0
    apply hsubdata
    rw [← hQsub, h0]
    rfl
  have htake : h.data.take (h.data.length - (r'.data.length + 1)) = Q := by
    rw [← hQ]
    have hlen : (Q ++ '.' :: r'.data).length - (r'.data.length + 1) = Q.length := by
      simp
    rw [hlen]
    exact List.take_left Q ('.' :: r'.data)
  have hsplit : (splitOnChar '.' Q).getD 0 [] = sub.data := by
    rcases hsp : splitOnChar '.' Q with _ | ⟨a, tail⟩
    · exact absurd hsp (splitOnChar_ne_nil '.' Q)
    · have ha : a = Q.takeWhile (· ≠ '.') := by
        have hh := splitOnChar_head? '.' Q
        rw [hsp] at hh
        simpa using hh
      rw [List.getD_cons_zero, ha, hQsub]
  dsimp only
  rw [hfind]
  dsimp only
  rw [if_neg hhr']
  rw [htake]
  rw [if_neg (by simpa using hQne)]
  rw [hsplit]
  rw [if_neg (by simpa using hsubdata)]

/-- C3 (counterexample): the host `a.example.com` decomposes as
`"a" ++ "." ++ "example.com"` with `example.com` among the configured
roots, so the claim demands `some "a"`; but against the root list
`["a.example.com", "example.com"]` the host equals the first configured
root, and resolution yields `none`. -/
theorem getSubdomainFromHost_bare_root_counterexample :
    getSubdomainFromHost ["a.example.com", "example.com"] "a.example.com" = none
    ∧ ("a.example.com" : String) = "a" ++ "." ++ "example.com"
    ∧ ("example.com" : String) ∈ ["a.example.com", "example.com"] :=
  ⟨rfl, rfl, by decide⟩

/-- Witness for `getSubdomainFromHost_spec` at a concrete host and root
list. -/
theorem getSubdomainFromHost_spec_witness :
    getSubdomainFromHost ["platform.io", "example.com"] "tenant.example.com"
      = some "tenant" :=
  getSubdomainFromHost_spec.1 ["platform.io", "example.com"] "tenant.example.com"
    "tenant" "example.com" (by rfl) (by decide) (by decide) (by rfl) (by decide)
    (by decide)
